import Mathlib

/-!
# Verification of the Office Online integration module

A shallow embedding of `src/webapp-integrations-office-online.js`, the Box
web-app module that embeds the Office Online editor in an iframe, exchanges
cross-frame messages and records load-time telemetry.

The module's observable behaviour is modelled as pure functions over an
explicit state:

* JavaScript runtime values produced by `JSON.parse` are modelled by `JsValue`;
  thrown runtime errors by `JsError` (propagated in `Except`).
* The browser builtins used by the module (`JSON.parse`, `JSON.stringify`,
  `decodeURIComponent`) are modelled by executable Lean functions over the
  subset of inputs the module's message protocol exercises; the doc comment of
  each model states its scope.
* Clock readings (`performance.now()`, `Date.getTime()`) are passed in
  explicitly as rational / integer parameters.
* DOM effects (telemetry records sent, messages posted to the frame, the
  parent document title) are fields of an explicit `ModuleState`.
-/

namespace OfficeOnline

/-- JavaScript runtime errors that the modelled code can throw:
`SyntaxError` from `JSON.parse`, `TypeError` from a member access on
`undefined`/`null`, `URIError` from `decodeURIComponent`. -/
inductive JsError where
  | syntaxError (msg : String)
  | typeError (msg : String)
  | uriError
  deriving Repr, DecidableEq

/-- JavaScript values, as produced by `JSON.parse` (plus `undefined`, the
result of reading an absent property). Object fields are kept in insertion
order; numbers cover the integer subset used by the module's protocol. -/
inductive JsValue where
  | undefined
  | null
  | bool (b : Bool)
  | num (n : Int)
  | str (s : String)
  | arr (elems : List JsValue)
  | obj (fields : List (String × JsValue))
  deriving Repr

/-- JavaScript truthiness of a `JsValue` (`if (v)`). -/
def JsValue.truthy : JsValue → Bool
  | .undefined => false
  | .null => false
  | .bool b => b
  | .num n => n != 0
  | .str s => s != ""
  | .arr _ => true
  | .obj _ => true

/-- Last binding of key `k` in an object field list. `JSON.parse` keeps the
last of duplicate keys, so property lookup returns the last binding. -/
def lookupLast (k : String) : List (String × JsValue) → Option JsValue
  | [] => none
  | p :: ps =>
    match lookupLast k ps with
    | some v => some v
    | none => if p.1 = k then some p.2 else none

/-- Property value of key `k` on an object field list: the last binding, or
`undefined` when the key is absent. -/
def fieldVal (fs : List (String × JsValue)) (k : String) : JsValue :=
  (lookupLast k fs).getD .undefined

/-- JavaScript member access `v[k]`: throws `TypeError` on `undefined` and
`null`, returns the property on objects, and `undefined` on other primitives
(which box to wrappers without such a property). -/
def JsValue.member (v : JsValue) (k : String) : Except JsError JsValue :=
  match v with
  | .undefined => .error (.typeError ("cannot read properties of undefined (reading " ++ k ++ ")"))
  | .null => .error (.typeError ("cannot read properties of null (reading " ++ k ++ ")"))
  | .obj fs => .ok (fieldVal fs k)
  | _ => .ok .undefined

/-- JavaScript strict equality `v === s` against a string literal: true
exactly when `v` is a string with the same contents. -/
def strictEqString (v : JsValue) (s : String) : Bool :=
  match v with
  | .str x => x = s
  | _ => false

/-- JavaScript string coercion as used by the `+` operator, for the value
subset `JSON.parse` can produce. Arrays and objects coerce through
`toPrimitive`; the module never concatenates them, so the object/array cases
here are the common default renderings. -/
def JsValue.asJsString : JsValue → String
  | .undefined => "undefined"
  | .null => "null"
  | .bool true => "true"
  | .bool false => "false"
  | .num n => toString n
  | .str s => s
  | .arr _ => ""
  | .obj _ => "[object Object]"

/-! ## A model of `JSON.parse`

Executable recursive-descent parser over `List Char`, fuel-indexed for
termination. Scope of the model: JSON objects, arrays, strings with the
single-character escapes, integer numbers, `true`/`false`/`null`, and
whitespace. `\u` escapes and fractional/exponent number forms are outside
the modelled subset (the module's protocol never produces them). -/

/-- The `{` character (written via its code point). -/
def lbrace : Char := Char.ofNat 123

/-- The `}` character (written via its code point). -/
def rbrace : Char := Char.ofNat 125

/-- Skip JSON whitespace. -/
def skipWs : List Char → List Char
  | c :: cs => if c = ' ' ∨ c = '\t' ∨ c = '\n' ∨ c = '\r' then skipWs cs else c :: cs
  | [] => []

/-- Single-character JSON string escapes. -/
def escChar (c : Char) : Option Char :=
  if c = '"' then some '"'
  else if c = '\\' then some '\\'
  else if c = '/' then some '/'
  else if c = 'n' then some '\n'
  else if c = 't' then some '\t'
  else if c = 'r' then some '\r'
  else if c = 'b' then some (Char.ofNat 8)
  else if c = 'f' then some (Char.ofNat 12)
  else none

/-- Parse the body of a JSON string after the opening quote, returning the
decoded contents and the remaining input. -/
def parseStringBody : Nat → List Char → Except String (String × List Char)
  | 0, _ => .error "out of fuel"
  | _ + 1, [] => .error "unterminated string"
  | fuel + 1, c :: cs =>
    if c = '"' then .ok ("", cs)
    else if c = '\\' then
      match cs with
      | [] => .error "unterminated escape"
      | e :: cs2 =>
        match escChar e with
        | none => .error "unsupported escape"
        | some ch =>
          match parseStringBody fuel cs2 with
          | .error m => .error m
          | .ok (s, rest) => .ok (String.mk (ch :: s.data), rest)
    else
      match parseStringBody fuel cs with
      | .error m => .error m
      | .ok (s, rest) => .ok (String.mk (c :: s.data), rest)

/-- Parse a run of decimal digits into a natural number (most significant
first), given the accumulator `acc`. -/
def parseDigits (acc : Nat) : List Char → Nat × List Char
  | c :: cs => if c.isDigit then parseDigits (acc * 10 + (c.toNat - 48)) cs else (acc, c :: cs)
  | [] => (acc, [])

mutual

/-- Parse one JSON value, returning it and the remaining input. -/
def parseVal : Nat → List Char → Except String (JsValue × List Char)
  | 0, _ => .error "out of fuel"
  | fuel + 1, cs =>
    match skipWs cs with
    | [] => .error "unexpected end of input"
    | c :: rest =>
      if c = '"' then
        match parseStringBody fuel rest with
        | .error m => .error m
        | .ok (s, r) => .ok (.str s, r)
      else if c = 't' then
        match rest with
        | 'r' :: 'u' :: 'e' :: r => .ok (.bool true, r)
        | _ => .error "bad literal"
      else if c = 'f' then
        match rest with
        | 'a' :: 'l' :: 's' :: 'e' :: r => .ok (.bool false, r)
        | _ => .error "bad literal"
      else if c = 'n' then
        match rest with
        | 'u' :: 'l' :: 'l' :: r => .ok (.null, r)
        | _ => .error "bad literal"
      else if c = '-' then
        match rest with
        | d :: r =>
          if d.isDigit then
            match parseDigits (d.toNat - 48) r with
            | (n, r2) => .ok (.num (-(n : Int)), r2)
          else .error "bad number"
        | [] => .error "bad number"
      else if c.isDigit then
        match parseDigits (c.toNat - 48) rest with
        | (n, r2) => .ok (.num (n : Int), r2)
      else if c = lbrace then
        match skipWs rest with
        | d :: r => if d = rbrace then .ok (.obj [], r) else parseMembersLoop fuel (d :: r)
        | [] => .error "unterminated object"
      else if c = '[' then
        match skipWs rest with
        | ']' :: r => .ok (.arr [], r)
        | r => parseElemsLoop fuel r
      else .error "unexpected character"

/-- Parse the (non-empty) member list of a JSON object, up to and including
the closing brace. -/
def parseMembersLoop : Nat → List Char → Except String (JsValue × List Char)
  | 0, _ => .error "out of fuel"
  | fuel + 1, cs =>
    match skipWs cs with
    | c :: rest =>
      if c = '"' then
        match parseStringBody fuel rest with
        | .error m => .error m
        | .ok (k, r1) =>
          match skipWs r1 with
          | ':' :: r2 =>
            match parseVal fuel r2 with
            | .error m => .error m
            | .ok (v, r3) =>
              match skipWs r3 with
              | ',' :: r4 =>
                match parseMembersLoop fuel r4 with
                | .error m => .error m
                | .ok (.obj ms, r5) => .ok (.obj ((k, v) :: ms), r5)
                | .ok _ => .error "impossible"
              | d :: r4 =>
                if d = rbrace then .ok (.obj [(k, v)], r4)
                else .error "expected comma or closing brace"
              | [] => .error "unterminated object"
          | _ => .error "expected colon"
      else .error "expected object key"
    | [] => .error "unterminated object"

/-- Parse the (non-empty) element list of a JSON array, up to and including
the closing bracket. -/
def parseElemsLoop : Nat → List Char → Except String (JsValue × List Char)
  | 0, _ => .error "out of fuel"
  | fuel + 1, cs =>
    match parseVal fuel cs with
    | .error m => .error m
    | .ok (v, r1) =>
      match skipWs r1 with
      | ',' :: r2 =>
        match parseElemsLoop fuel r2 with
        | .error m => .error m
        | .ok (.arr es, r3) => .ok (.arr (v :: es), r3)
        | .ok _ => .error "impossible"
      | ']' :: r2 => .ok (.arr [v], r2)
      | _ => .error "expected comma or closing bracket"

end

/-- Model of `JSON.parse`: parse one value and require only whitespace to
follow. Failures are JavaScript `SyntaxError`s. -/
def jsonParse (s : String) : Except JsError JsValue :=
  match parseVal (s.length + 1) s.data with
  | .error m => .error (.syntaxError m)
  | .ok (v, rest) => if skipWs rest = [] then .ok v else .error (.syntaxError "unexpected trailing characters")

/-! ## A model of `JSON.stringify`

Scope of the model: the value subset above; object fields with `undefined`
values are dropped as in JavaScript. The module only ever stringifies the
fixed-shape ready message. -/

/-- Escape the body of a JSON string (common escapes; the module's strings
contain none). -/
def stringifyStringBody : List Char → String
  | [] => ""
  | c :: cs =>
    (if c = '"' then "\\\""
     else if c = '\\' then "\\\\"
     else if c = '\n' then "\\n"
     else if c = '\t' then "\\t"
     else if c = '\r' then "\\r"
     else String.mk [c]) ++ stringifyStringBody cs

mutual

/-- Serialize one value. `undefined` is unreachable from the module's
messages (object fields holding it are dropped by `stringifyFields`). -/
def stringifyVal : JsValue → String
  | .undefined => "null"
  | .null => "null"
  | .bool true => "true"
  | .bool false => "false"
  | .num n => toString n
  | .str s => "\"" ++ stringifyStringBody s.data ++ "\""
  | .arr es => "[" ++ stringifyElems es ++ "]"
  | .obj fs => String.mk [lbrace] ++ stringifyFields fs ++ String.mk [rbrace]

/-- Serialize object fields, comma separated, dropping `undefined` values. -/
def stringifyFields : List (String × JsValue) → String
  | [] => ""
  | (k, v) :: ps =>
    let restStr := stringifyFields ps
    match v with
    | .undefined => restStr
    | _ =>
      "\"" ++ stringifyStringBody k.data ++ "\":" ++ stringifyVal v ++
        (if restStr = "" then "" else ",") ++ restStr

/-- Serialize array elements, comma separated. -/
def stringifyElems : List JsValue → String
  | [] => ""
  | [v] => stringifyVal v
  | v :: vs => stringifyVal v ++ "," ++ stringifyElems vs

end

/-- Model of `JSON.stringify` on the value subset above. -/
def jsonStringify (v : JsValue) : String := stringifyVal v

/-! ## `getParameterByName` (source lines 76–83)

The source runs the regex `[?&]name(=([^&#]*)|&|#|$)` over the URL and
returns `null` on no match, `''` when capture group 2 is absent or empty,
and otherwise `decodeURIComponent(group2.replace(/\+/g, ' '))`. The
bracket-escaping `name.replace(/[\[\]]/g, '\\$&')` makes `[`/`]` literal in
the regex; the name is matched literally here, which agrees for every name
without other regex metacharacters (the module only ever passes
`disableAllowSameOrigin`). -/

/-- Value of a hexadecimal digit character. -/
def hexDigitVal (c : Char) : Option Nat :=
  if '0' ≤ c ∧ c ≤ '9' then some (c.toNat - 48)
  else if 'a' ≤ c ∧ c ≤ 'f' then some (c.toNat - 87)
  else if 'A' ≤ c ∧ c ≤ 'F' then some (c.toNat - 55)
  else none

/-- Model of `decodeURIComponent` (after the `+`→space replacement):
`%XX` with an ASCII code point decodes to that character; a malformed `%`
sequence or a non-ASCII byte raises `URIError` (JavaScript also raises on
lone non-ASCII bytes; valid multi-byte UTF-8 sequences are outside the
modelled subset — no claim involves them). -/
def percentDecode : List Char → Except JsError (List Char)
  | [] => .ok []
  | '%' :: h1 :: h2 :: rest =>
    match hexDigitVal h1, hexDigitVal h2 with
    | some a, some b =>
      if a * 16 + b < 128 then
        match percentDecode rest with
        | .error e => .error e
        | .ok cs => .ok (Char.ofNat (a * 16 + b) :: cs)
      else .error .uriError
    | _, _ => .error .uriError
  | '%' :: _ => .error .uriError
  | c :: rest =>
    match percentDecode rest with
    | .error e => .error e
    | .ok cs => .ok (c :: cs)

/-- The `.replace(/\+/g, ' ')` step applied to capture group 2. -/
def plusToSpace (cs : List Char) : List Char :=
  cs.map (fun c => if c = '+' then ' ' else c)

/-- Attempt the regex alternation `(=([^&#]*)|&|#|$)` at the position just
after `[?&]name`. `none`: the position fails. `some none`: matched via
`&`, `#` or end of input (group 2 unset). `some (some v)`: matched `=`
followed by the greedy run `v` of characters other than `&`/`#`. -/
def matchAlternation (after : List Char) : Option (Option (List Char)) :=
  match after with
  | [] => some none
  | d :: ds =>
    if d = '=' then some (some (ds.takeWhile (fun x => ¬(x = '&' ∨ x = '#'))))
    else if d = '&' ∨ d = '#' then some none
    else none

/-- Leftmost match of `[?&]name(=([^&#]*)|&|#|$)`: at each position, try
`?`/`&` followed by the literal name and the alternation; on failure resume
the scan one character later. -/
def findParamMatch (nm : List Char) : List Char → Option (Option (List Char))
  | [] => none
  | c :: rest =>
    if (c = '?' ∨ c = '&') ∧ rest.take nm.length = nm then
      match matchAlternation (rest.drop nm.length) with
      | some g => some g
      | none => findParamMatch nm rest
    else findParamMatch nm rest

/-- `getParameterByName(name, url)`: `none` models the `null` return (no
match); `some s` a string return. -/
def getParameterByName (nm url : String) : Except JsError (Option String) :=
  match findParamMatch nm.data url.data with
  | none => .ok none
  | some none => .ok (some "")
  | some (some v) =>
    if v = [] then .ok (some "")
    else
      match percentDecode (plusToSpace v) with
      | .error e => .error e
      | .ok cs => .ok (some (String.mk cs))

/-! ## Module constants (source lines 15–25) -/

def APP_LOADING_STATUS_MESSAGE_ID : String := "App_LoadingStatus"

def POST_MESSAGE_READY_MESSAGE_ID : String := "Host_PostmessageReady"

def FILE_RENAME_MESSAGE_ID : String := "File_Rename"

def IFRAME_LOAD_TIME_EVENT : String := "IFRAME_LOAD_TIME"

def EDITOR_LOAD_TIME_EVENT : String := "EDITOR_LOAD_TIME"

def EDITOR_IFRAME_NAME : String := "office-editor"

def EDITOR_IFRAME_CLASS : String := "office-editor-frame"

def OFFICE_ONLINE_CATEGORY_NAME : String := "office_online"

def DISABLE_SAME_ORIGIN_KEY : String := "disableAllowSameOrigin"

/-- Sandbox value set when the disable flag is truthy (source line 146). -/
def SANDBOX_STRICT : String :=
  "allow-scripts allow-forms allow-popups allow-top-navigation allow-popups-to-escape-sandbox allow-downloads"

/-- Sandbox value set otherwise (source line 148): the same list plus
`allow-same-origin`. -/
def SANDBOX_WITH_SAME_ORIGIN : String :=
  "allow-scripts allow-same-origin allow-forms allow-popups allow-top-navigation allow-popups-to-escape-sandbox allow-downloads"

/-! ## Environment and DOM model -/

/-- External inputs of the module, immutable during a session: the host
configuration values read through `context.getConfig`, the page-level global
`invocationUrl` that the source assigns to the frame `src` (line 143), and
the host localization helper `$t(template, key, a, b)`, kept abstract as a
function. -/
structure Env where
  serviceId : String
  officeOnlineAppType : String
  fileExtension : String
  titleWithNoFilename : String
  origin : String
  invocationUrl : String
  t : String → String → String → String → String

/-- An iframe element: its `name`/`className` properties and its attribute
list in assignment order. -/
structure FrameElement where
  name : String
  className : String
  attrs : List (String × String)
  deriving Repr, DecidableEq

/-- `el.setAttribute(k, v)`: overwrite the existing attribute or append. -/
def FrameElement.setAttribute (el : FrameElement) (k v : String) : FrameElement :=
  if (el.attrs.map Prod.fst).contains k then
    { el with attrs := el.attrs.map (fun p => if p.1 = k then (k, v) else p) }
  else { el with attrs := el.attrs ++ [(k, v)] }

/-- `el.getAttribute(k)` (first — and only — binding of `k`). -/
def FrameElement.getAttribute (el : FrameElement) (k : String) : Option String :=
  (el.attrs.find? (fun p => p.1 = k)).map Prod.snd

/-- One telemetry record passed to `logger.sendLog(category, eventType,
params)` (source lines 53–60). -/
structure TelemetryRecord where
  category : String
  eventType : String
  event_name : String
  load_time : ℚ
  service_id : String
  office_online_app_type : String
  deriving Repr, DecidableEq

/-- `logLoadTime(eventName)` (source lines 46–67): computes
`loadTime = performance.now() - startTs`, always sends one record, and sends
a second one with `_slow` appended to the event name when
`loadTime >= 10000`. Clock reading and `startTs` are explicit arguments. -/
def logLoadTime (env : Env) (startTs now : ℚ) (eventName : String) : List TelemetryRecord :=
  let loadTime := now - startTs
  let p : TelemetryRecord :=
    { category := OFFICE_ONLINE_CATEGORY_NAME, eventType := "perf",
      event_name := eventName, load_time := loadTime,
      service_id := env.serviceId, office_online_app_type := env.officeOnlineAppType }
  if 10000 ≤ loadTime then [p, { p with event_name := eventName ++ "_slow" }] else [p]

/-- `getOfficeEditorFrameElement()` (source lines 136–151): builds the
iframe, sets name, class, `allowfullscreen`, `allow`, `src`, then chooses the
sandbox value by JavaScript truthiness of
`getParameterByName('disableAllowSameOrigin', window.location.href)` —
`null` and `''` select the branch that includes `allow-same-origin`.
`pageUrl` stands for `window.location.href`. -/
def getOfficeEditorFrameElement (env : Env) (pageUrl : String) : Except JsError FrameElement :=
  let f0 : FrameElement := { name := EDITOR_IFRAME_NAME, className := EDITOR_IFRAME_CLASS, attrs := [] }
  let f1 := ((f0.setAttribute "allowfullscreen" "true").setAttribute "allow" "microphone").setAttribute "src" env.invocationUrl
  match getParameterByName DISABLE_SAME_ORIGIN_KEY pageUrl with
  | .error e => .error e
  | .ok d =>
    let truthy := match d with | none => false | some s => s != ""
    if truthy then .ok (f1.setAttribute "sandbox" SANDBOX_STRICT)
    else .ok (f1.setAttribute "sandbox" SANDBOX_WITH_SAME_ORIGIN)

/-! ## Module state and message handling -/

/-- Observable state of one module session: the start timestamp captured at
`init`, whether the message listener is subscribed, the inserted frame, the
submitted authentication form, the hosting (parent) document title, the
telemetry records sent so far, and the `(message, targetOrigin)` pairs
posted to the frame so far. -/
structure ModuleState where
  startTs : ℚ
  subscribed : Bool
  frame : Option FrameElement
  formSubmitted : Bool
  parentDocTitle : String
  logs : List TelemetryRecord
  posted : List (String × String)
  deriving Repr, DecidableEq

/-- The object passed to `publishMessage` by `publishReadyMessage` (source
lines 230–236): fixed `MessageId`, current epoch-millisecond timestamp from
`getCurrentTimestamp()`, empty `Values`. -/
def readyMessage (epochNow : Int) : JsValue :=
  .obj [("MessageId", .str POST_MESSAGE_READY_MESSAGE_ID),
        ("SendTime", .num epochNow),
        ("Values", .obj [])]

/-- `publishMessage` (source lines 218–223) stringifies the message and
posts it to the frame's content window with the configured target origin. -/
def readyPost (env : Env) (epochNow : Int) : String × String :=
  (jsonStringify (readyMessage epochNow), env.origin)

/-- Effect of the `App_LoadingStatus` branch (source lines 181–184):
`logLoadTime(EDITOR_LOAD_TIME_EVENT)` then `publishReadyMessage()`. -/
def handleAppLoading (env : Env) (st : ModuleState) (now : ℚ) (epochNow : Int) : ModuleState :=
  { st with
    logs := st.logs ++ logLoadTime env st.startTs now EDITOR_LOAD_TIME_EVENT,
    posted := st.posted ++ [readyPost env epochNow] }

/-- Effect of the `File_Rename` branch (source lines 186–197): read
`data.Values`, read `.NewName` from it (a `TypeError` when `Values` is
absent), build `NewName + '.' + fileExtension`, render the title through
`$t` and write it to `window.parent.document.title`. -/
def handleFileRename (env : Env) (st : ModuleState) (data : JsValue) : Except JsError ModuleState :=
  match data.member "Values" with
  | .error e => .error e
  | .ok msgValue =>
    match msgValue.member "NewName" with
    | .error e => .error e
    | .ok nn =>
      let newName := nn.asJsString ++ "." ++ env.fileExtension
      let newTitle := env.t "%1 on %2" "office_online_window_title_with_file_name" newName env.titleWithNoFilename
      .ok { st with parentDocTitle := newTitle }

/-- The guard `data && data.MessageId === k`: member access happens only
when `data` is truthy (and then cannot throw), matching the short-circuit
in the source. -/
def messageIdIs (data : JsValue) (k : String) : Except JsError Bool :=
  if data.truthy then
    match data.member "MessageId" with
    | .error e => .error e
    | .ok mid => .ok (strictEqString mid k)
  else .ok false

/-- Dispatch on a parsed payload: the two `if` statements of the source
(lines 181 and 186) in order, the second seeing the state left by the
first. -/
def handleParsed (env : Env) (st : ModuleState) (data : JsValue) (now : ℚ) (epochNow : Int) :
    Except JsError ModuleState :=
  match messageIdIs data APP_LOADING_STATUS_MESSAGE_ID with
  | .error e => .error e
  | .ok b1 =>
    let st1 := if b1 then handleAppLoading env st now epochNow else st
    match messageIdIs data FILE_RENAME_MESSAGE_ID with
    | .error e => .error e
    | .ok b2 => if b2 then handleFileRename env st1 data else .ok st1

/-- `receiveEventFromOfficeOnline(event)` (source lines 178–199).
`payload` models `event.originalEvent.data`: `none` for an absent
(`undefined`/`null`) payload, `some s` for a string payload — `some ""`
is falsy in the guard, so both are no-ops. Otherwise `JSON.parse` runs
unconditionally and its failure propagates. `now` is the `performance.now()`
reading used by `logLoadTime`; `epochNow` the `Date.getTime()` reading used
by `publishReadyMessage`. -/
def receiveEventFromOfficeOnline (env : Env) (st : ModuleState) (payload : Option String)
    (now : ℚ) (epochNow : Int) : Except JsError ModuleState :=
  match payload with
  | none => .ok st
  | some s =>
    if s = "" then .ok st
    else
      match jsonParse s with
      | .error e => .error e
      | .ok data => handleParsed env st data now epochNow

/-- `init()` (source lines 95–108), in source order: capture
`startTs = performance.now()` (reading `now0`); `drawIframe()` — build the
frame, append it to the holder and call
`logLoadTime(IFRAME_LOAD_TIME_EVENT)` (clock reading `now1`);
`postTokenToIframe()` — submit the authentication form; subscribe the
message listener. `title0` is the parent document title at that moment. -/
def initModule (env : Env) (pageUrl : String) (title0 : String) (now0 now1 : ℚ) :
    Except JsError ModuleState :=
  match getOfficeEditorFrameElement env pageUrl with
  | .error e => .error e
  | .ok frameEl =>
    .ok { startTs := now0, subscribed := true, frame := some frameEl, formSubmitted := true,
          parentDocTitle := title0,
          logs := logLoadTime env now0 now1 IFRAME_LOAD_TIME_EVENT,
          posted := [] }

/-- Events of one session after `init`: delivery of a `message` event (with
its payload and the two clock readings at that moment), or `destroy()`. -/
inductive ModuleEvent where
  | inbound (payload : Option String) (now : ℚ) (epochNow : Int)
  | destroy
  deriving Repr

/-- The `performance.now()` reading at an event, when it has one. -/
def eventNow : ModuleEvent → Option ℚ
  | .inbound _ now _ => some now
  | .destroy => none

/-- The `Date.getTime()` reading at an event, when it has one. -/
def eventEpoch : ModuleEvent → Option Int
  | .inbound _ _ epochNow => some epochNow
  | .destroy => none

/-- One session step. An inbound message reaches the handler only while the
listener is subscribed. An uncaught handler error aborts the handler; every
throw point in the handler precedes any state write, so the state is
unchanged in that case. `destroy()` (source lines 115–117) unsubscribes the
listener. -/
def step (env : Env) (st : ModuleState) (e : ModuleEvent) : ModuleState :=
  match e with
  | .inbound payload now epochNow =>
    if st.subscribed then
      match receiveEventFromOfficeOnline env st payload now epochNow with
      | .ok st2 => st2
      | .error _ => st
    else st
  | .destroy => { st with subscribed := false }

/-- Run a list of session events in order. -/
def run (env : Env) (st : ModuleState) : List ModuleEvent → ModuleState
  | [] => st
  | e :: es => run env (step env st e) es

/-! ## Concrete sample values (used to instantiate theorems) -/

/-- A concrete environment. -/
def sampleEnv : Env :=
  { serviceId := "sid", officeOnlineAppType := "word", fileExtension := "xlsx",
    titleWithNoFilename := "Box for Office Online", origin := "https://officeapps.example",
    invocationUrl := "https://editor.example/invoke",
    t := fun _ _ a b => a ++ " on " ++ b }

/-- A concrete mid-session state. -/
def sampleState : ModuleState :=
  { startTs := 0, subscribed := true, frame := none, formSubmitted := true,
    parentDocTitle := "t0", logs := [], posted := [] }

/-- The frame element built for a page URL without the disable flag. -/
def sampleFrame : FrameElement :=
  { name := EDITOR_IFRAME_NAME, className := EDITOR_IFRAME_CLASS,
    attrs := [("allowfullscreen", "true"), ("allow", "microphone"),
              ("src", "https://editor.example/invoke"), ("sandbox", SANDBOX_WITH_SAME_ORIGIN)] }

/-- The iframe-load telemetry record of the sample session (inserted at
clock reading 250 with start timestamp 100). -/
def sampleIframeRecord : TelemetryRecord :=
  { category := "office_online", eventType := "perf",
    event_name := "IFRAME_LOAD_TIME", load_time := 150,
    service_id := "sid", office_online_app_type := "word" }

/-- The editor-load telemetry record of the sample session (editor ready at
clock reading 12000 with start timestamp 100). -/
def sampleEditorRecord : TelemetryRecord :=
  { category := "office_online", eventType := "perf",
    event_name := "EDITOR_LOAD_TIME", load_time := 11900,
    service_id := "sid", office_online_app_type := "word" }

/-- The state right after `init` with clock readings 100 and 250. -/
def sampleInitState : ModuleState :=
  { startTs := 100, subscribed := true, frame := some sampleFrame, formSubmitted := true,
    parentDocTitle := "t0", logs := [sampleIframeRecord], posted := [] }

/-- A well-formed `App_LoadingStatus` payload. -/
def appLoadingPayload : String := "\x7b\"MessageId\":\"App_LoadingStatus\"\x7d"

/-- A well-formed `File_Rename` payload. -/
def fileRenamePayload : String :=
  "\x7b\"MessageId\":\"File_Rename\",\"Values\":\x7b\"NewName\":\"Report\"\x7d\x7d"

/-! ## Helper lemmas -/

/-- Strict equality against a string is false for any value other than that
exact string. -/
theorem strictEqString_eq_false {v : JsValue} {k : String} (h : v ≠ .str k) :
    strictEqString v k = false := by
  cases v <;> simp [strictEqString]
  intro hk
  exact h (by rw [hk])

/-- Strict equality of a string value against its own contents. -/
theorem strictEqString_self (k : String) : strictEqString (.str k) k = true := by
  simp [strictEqString]

/-- The two supported message ids are distinct string values. -/
theorem app_ne_file :
    JsValue.str APP_LOADING_STATUS_MESSAGE_ID ≠ .str FILE_RENAME_MESSAGE_ID :=
  fun h => absurd (JsValue.str.inj h) (by decide)

/-- The two supported message ids are distinct string values. -/
theorem file_ne_app :
    JsValue.str FILE_RENAME_MESSAGE_ID ≠ .str APP_LOADING_STATUS_MESSAGE_ID :=
  fun h => absurd (JsValue.str.inj h) (by decide)

/-- On a parsed object the message-id guard never throws and reduces to
strict string equality of the `MessageId` field. -/
theorem messageIdIs_obj (fs : List (String × JsValue)) (k : String) :
    messageIdIs (.obj fs) k = .ok (strictEqString (fieldVal fs "MessageId") k) := rfl

/-- A nonempty payload that parses to a value is handled by `handleParsed`. -/
theorem receiveEvent_parsed (env : Env) (st : ModuleState) (s : String) (now : ℚ) (epochNow : Int)
    (data : JsValue) (hs : s ≠ "") (hp : jsonParse s = .ok data) :
    receiveEventFromOfficeOnline env st (some s) now epochNow = handleParsed env st data now epochNow := by
  simp only [receiveEventFromOfficeOnline, hp, if_neg hs]

/-- Every record emitted by `logLoadTime` carries the elapsed time
`now - startTs`, under the event name or its `_slow` variant. -/
theorem mem_logLoadTime {env : Env} {startTs now : ℚ} {eventName : String} {r : TelemetryRecord}
    (hr : r ∈ logLoadTime env startTs now eventName) :
    r.load_time = now - startTs ∧
    (r.event_name = eventName ∨ r.event_name = eventName ++ "_slow") := by
  by_cases h10 : 10000 ≤ now - startTs
  · simp only [logLoadTime, if_pos h10, List.mem_cons, List.not_mem_nil, or_false] at hr
    rcases hr with rfl | rfl <;> simp
  · simp only [logLoadTime, if_neg h10, List.mem_singleton] at hr
    subst hr
    simp

/-- `handleFileRename` only ever changes the parent document title. -/
theorem handleFileRename_fields {env : Env} {st st2 : ModuleState} {data : JsValue}
    (h : handleFileRename env st data = .ok st2) :
    st2.startTs = st.startTs ∧ st2.subscribed = st.subscribed ∧ st2.frame = st.frame ∧
    st2.logs = st.logs ∧ st2.posted = st.posted := by
  unfold handleFileRename at h
  cases hv : data.member "Values" with
  | error e => simp only [hv] at h; exact Except.noConfusion h
  | ok msgValue =>
    simp only [hv] at h
    cases hn : msgValue.member "NewName" with
    | error e => simp only [hn] at h; exact Except.noConfusion h
    | ok nn =>
      simp only [hn] at h
      cases h
      exact ⟨rfl, rfl, rfl, rfl, rfl⟩

/-- `handleParsed` leaves `startTs`, `subscribed` and the frame unchanged;
its only appends are the editor-load records and the ready post. -/
theorem handleParsed_fields {env : Env} {st st2 : ModuleState} {data : JsValue} {now : ℚ}
    {epochNow : Int} (h : handleParsed env st data now epochNow = .ok st2) :
    st2.startTs = st.startTs ∧ st2.subscribed = st.subscribed ∧ st2.frame = st.frame ∧
    (st2.logs = st.logs ∨ st2.logs = st.logs ++ logLoadTime env st.startTs now EDITOR_LOAD_TIME_EVENT) ∧
    (st2.posted = st.posted ∨ st2.posted = st.posted ++ [readyPost env epochNow]) := by
  unfold handleParsed at h
  cases h1 : messageIdIs data APP_LOADING_STATUS_MESSAGE_ID with
  | error e => simp only [h1] at h; exact Except.noConfusion h
  | ok b1 =>
    simp only [h1] at h
    cases h2 : messageIdIs data FILE_RENAME_MESSAGE_ID with
    | error e => simp only [h2] at h; exact Except.noConfusion h
    | ok b2 =>
      simp only [h2] at h
      cases b1 <;> cases b2 <;>
        simp only [Bool.false_eq_true, eq_self_iff_true, if_true, if_false] at h
      · cases h; exact ⟨rfl, rfl, rfl, Or.inl rfl, Or.inl rfl⟩
      · rcases handleFileRename_fields h with ⟨ha, hb, hc, hd, he⟩
        exact ⟨ha, hb, hc, Or.inl hd, Or.inl he⟩
      · cases h
        exact ⟨rfl, rfl, rfl, Or.inr rfl, Or.inr rfl⟩
      · rcases handleFileRename_fields h with ⟨ha, hb, hc, hd, he⟩
        exact ⟨ha, hb, hc, Or.inr hd, Or.inr he⟩

/-- Field bookkeeping for a successful handler call. -/
theorem receiveEvent_fields {env : Env} {st st2 : ModuleState} {payload : Option String}
    {now : ℚ} {epochNow : Int}
    (h : receiveEventFromOfficeOnline env st payload now epochNow = .ok st2) :
    st2.startTs = st.startTs ∧ st2.subscribed = st.subscribed ∧ st2.frame = st.frame ∧
    (st2.logs = st.logs ∨ st2.logs = st.logs ++ logLoadTime env st.startTs now EDITOR_LOAD_TIME_EVENT) ∧
    (st2.posted = st.posted ∨ st2.posted = st.posted ++ [readyPost env epochNow]) := by
  unfold receiveEventFromOfficeOnline at h
  cases payload with
  | none =>
    dsimp only at h
    cases h
    exact ⟨rfl, rfl, rfl, Or.inl rfl, Or.inl rfl⟩
  | some s =>
    dsimp only at h
    by_cases hs : s = ""
    · rw [if_pos hs] at h; cases h; exact ⟨rfl, rfl, rfl, Or.inl rfl, Or.inl rfl⟩
    · rw [if_neg hs] at h
      cases hp : jsonParse s with
      | error e => simp only [hp] at h; exact Except.noConfusion h
      | ok data => simp only [hp] at h; exact handleParsed_fields h

/-- Field bookkeeping for one session step: `startTs` never changes, the
subscription only changes on `destroy`, and the only appends are editor-load
records and ready posts carrying the clock readings of that step. -/
theorem step_fields (env : Env) (st : ModuleState) (e : ModuleEvent) :
    (step env st e).startTs = st.startTs ∧
    ((step env st e).logs = st.logs ∨
      ∃ n, eventNow e = some n ∧
        (step env st e).logs = st.logs ++ logLoadTime env st.startTs n EDITOR_LOAD_TIME_EVENT) ∧
    ((step env st e).posted = st.posted ∨
      ∃ t, eventEpoch e = some t ∧ (step env st e).posted = st.posted ++ [readyPost env t]) := by
  cases e with
  | destroy => exact ⟨rfl, Or.inl rfl, Or.inl rfl⟩
  | inbound payload now epochNow =>
    simp only [step]
    by_cases hsub : st.subscribed
    · rw [if_pos hsub]
      cases hr : receiveEventFromOfficeOnline env st payload now epochNow with
      | error e => exact ⟨rfl, Or.inl rfl, Or.inl rfl⟩
      | ok st2 =>
        rcases receiveEvent_fields hr with ⟨h1, _, _, h4, h5⟩
        refine ⟨h1, ?_, ?_⟩
        · rcases h4 with h4 | h4
          · exact Or.inl h4
          · exact Or.inr ⟨now, rfl, h4⟩
        · rcases h5 with h5 | h5
          · exact Or.inl h5
          · exact Or.inr ⟨epochNow, rfl, h5⟩
    · rw [if_neg hsub]
      exact ⟨rfl, Or.inl rfl, Or.inl rfl⟩

/-- A step on an unsubscribed state is the identity. -/
theorem step_of_unsubscribed {env : Env} {st : ModuleState} (h : st.subscribed = false)
    (e : ModuleEvent) : step env st e = st := by
  cases e with
  | inbound payload now epochNow => simp [step, h]
  | destroy => cases st; simp_all [step]

/-- A run from an unsubscribed state is the identity. -/
theorem run_of_unsubscribed {env : Env} {st : ModuleState} (h : st.subscribed = false)
    (es : List ModuleEvent) : run env st es = st := by
  induction es with
  | nil => rfl
  | cons e es ih => rw [run, step_of_unsubscribed h e]; exact ih

/-! ## Claim theorems -/

/-- C3: for every call to `logLoadTime` with elapsed time
`now - startTs`: when the elapsed time is at least 10000 ms, exactly two
telemetry records are emitted for that milestone, the second identical to
the first except that its event name is the first record's event name with
`_slow` appended; when the elapsed time is below 10000 ms, exactly one
record is emitted. -/
theorem logLoadTime_slow_threshold (env : Env) (startTs now : ℚ) (eventName : String) :
    (10000 ≤ now - startTs →
      ∃ r : TelemetryRecord,
        logLoadTime env startTs now eventName =
          [r, { r with event_name := r.event_name ++ "_slow" }] ∧
        r.event_name = eventName ∧ r.load_time = now - startTs) ∧
    (now - startTs < 10000 →
      ∃ r : TelemetryRecord,
        logLoadTime env startTs now eventName = [r] ∧
        r.event_name = eventName ∧ r.load_time = now - startTs) := by
  constructor
  · intro h
    refine ⟨⟨OFFICE_ONLINE_CATEGORY_NAME, "perf", eventName, now - startTs,
             env.serviceId, env.officeOnlineAppType⟩, ?_, rfl, rfl⟩
    simp [logLoadTime, if_pos h]
  · intro h
    refine ⟨⟨OFFICE_ONLINE_CATEGORY_NAME, "perf", eventName, now - startTs,
             env.serviceId, env.officeOnlineAppType⟩, ?_, rfl, rfl⟩
    simp [logLoadTime, if_neg (not_le.mpr h)]

/-- Witness for C3: with `startTs = 0`, a reading at 12000 ms is at the slow
threshold and emits two records; a reading at 500 ms emits one. -/
theorem logLoadTime_slow_threshold_witness :
    (∃ r : TelemetryRecord,
      logLoadTime sampleEnv 0 12000 "EDITOR_LOAD_TIME" =
        [r, { r with event_name := r.event_name ++ "_slow" }] ∧
      r.event_name = "EDITOR_LOAD_TIME" ∧ r.load_time = (12000 : ℚ) - 0) ∧
    (∃ r : TelemetryRecord,
      logLoadTime sampleEnv 0 500 "IFRAME_LOAD_TIME" = [r] ∧
      r.event_name = "IFRAME_LOAD_TIME" ∧ r.load_time = (500 : ℚ) - 0) :=
  ⟨(logLoadTime_slow_threshold sampleEnv 0 12000 "EDITOR_LOAD_TIME").1 (by norm_num),
   (logLoadTime_slow_threshold sampleEnv 0 500 "IFRAME_LOAD_TIME").2 (by norm_num)⟩

/-- C4: an inbound message event with an absent or empty payload performs no
action and raises no error; when a nonempty payload is present, JSON parsing
is attempted unconditionally, and a malformed (non-JSON) payload makes the
handler throw the parse error, with no recovery. -/
theorem parse_policy_unconditional (env : Env) (st : ModuleState) (now : ℚ) (epochNow : Int) :
    receiveEventFromOfficeOnline env st none now epochNow = .ok st ∧
    receiveEventFromOfficeOnline env st (some "") now epochNow = .ok st ∧
    (∀ s : String, ∀ e : JsError, s ≠ "" → jsonParse s = .error e →
      receiveEventFromOfficeOnline env st (some s) now epochNow = .error e) := by
  refine ⟨rfl, rfl, fun s e hs hp => ?_⟩
  simp only [receiveEventFromOfficeOnline, if_neg hs, hp]

/-- Witness for C4: an absent payload is a no-op; the malformed payload
`"not json"` makes the handler throw a `SyntaxError`. -/
theorem parse_policy_unconditional_witness :
    receiveEventFromOfficeOnline sampleEnv sampleState none 5 7 = .ok sampleState ∧
    receiveEventFromOfficeOnline sampleEnv sampleState (some "not json") 5 7 =
      .error (.syntaxError "bad literal") :=
  ⟨(parse_policy_unconditional sampleEnv sampleState 5 7).1,
   (parse_policy_unconditional sampleEnv sampleState 5 7).2.2 "not json"
     (.syntaxError "bad literal") (by decide) rfl⟩

/-- C9: after `destroy` the message subscription is removed: the listener
flag is cleared, and every subsequently delivered event — in particular
every inbound message — leaves the state unchanged: no handler invocation,
so no timing emission, no outbound message, no title change. -/
theorem destroy_removes_subscription (env : Env) (st : ModuleState) (es : List ModuleEvent) :
    (step env st .destroy).subscribed = false ∧
    run env (step env st .destroy) es = step env st .destroy :=
  ⟨rfl, run_of_unsubscribed rfl es⟩

/-- C10: an inbound message whose JSON payload has MessageId `File_Rename`
but no `Values` field makes the handler throw an uncaught `TypeError`
(reading `NewName` from `undefined`) rather than ignore the message. -/
theorem rename_without_values_throws (env : Env) (st : ModuleState) (now : ℚ) (epochNow : Int) :
    receiveEventFromOfficeOnline env st
        (some "\x7b\"MessageId\":\"File_Rename\"\x7d") now epochNow =
      .error (.typeError "cannot read properties of undefined (reading NewName)") := rfl

/-- C6: the built frame element has the fixed name `office-editor` and the
fixed class `office-editor-frame` for later lookup, has the fullscreen and
microphone capability attributes enabled, and has its source URL set to the
configured remote editor URL. -/
theorem frame_element_fixed_attributes (env : Env) (url : String) (f : FrameElement)
    (hf : getOfficeEditorFrameElement env url = .ok f) :
    f.name = EDITOR_IFRAME_NAME ∧ f.className = EDITOR_IFRAME_CLASS ∧
    f.getAttribute "allowfullscreen" = some "true" ∧
    f.getAttribute "allow" = some "microphone" ∧
    f.getAttribute "src" = some env.invocationUrl := by
  unfold getOfficeEditorFrameElement at hf
  cases hq : getParameterByName DISABLE_SAME_ORIGIN_KEY url with
  | error e => simp only [hq] at hf; exact Except.noConfusion hf
  | ok d =>
    simp only [hq] at hf
    split at hf <;> cases hf <;> exact ⟨rfl, rfl, rfl, rfl, rfl⟩

/-- Witness for C6 at a concrete environment and page URL. -/
theorem frame_element_fixed_attributes_witness :
    sampleFrame.name = EDITOR_IFRAME_NAME ∧ sampleFrame.className = EDITOR_IFRAME_CLASS ∧
    sampleFrame.getAttribute "allowfullscreen" = some "true" ∧
    sampleFrame.getAttribute "allow" = some "microphone" ∧
    sampleFrame.getAttribute "src" = some sampleEnv.invocationUrl :=
  frame_element_fixed_attributes sampleEnv "https://app.example/file/1" sampleFrame rfl

/-- C1 counterexample: on a page URL where `disableAllowSameOrigin` is
present with an empty value, the parameter is present (`getParameterByName`
returns `''`, not `null`), yet the built frame's sandbox attribute still
contains `allow-same-origin` — refuting the claim that presence with any
value, including an empty value, removes `allow-same-origin`. -/
theorem sandbox_empty_value_counterexample :
    getParameterByName DISABLE_SAME_ORIGIN_KEY
        "https://app.example/file/1?disableAllowSameOrigin=" = .ok (some "") ∧
    (getOfficeEditorFrameElement sampleEnv
        "https://app.example/file/1?disableAllowSameOrigin=").map
      (fun f => f.getAttribute "sandbox") = .ok (some SANDBOX_WITH_SAME_ORIGIN) :=
  ⟨rfl, rfl⟩

/-- C1 (amended): the sandbox attribute of the built frame equals the base
permission set plus `allow-same-origin` when `disableAllowSameOrigin` is
absent from the page URL or present with an empty value, and equals the
base set without `allow-same-origin` when the parameter is present with any
non-empty value (including explicit falsy strings such as "false"). -/
theorem sandbox_attribute_selection (env : Env) (url : String) :
    (getParameterByName DISABLE_SAME_ORIGIN_KEY url = .ok none →
      (getOfficeEditorFrameElement env url).map (fun f => f.getAttribute "sandbox") =
        .ok (some SANDBOX_WITH_SAME_ORIGIN)) ∧
    (getParameterByName DISABLE_SAME_ORIGIN_KEY url = .ok (some "") →
      (getOfficeEditorFrameElement env url).map (fun f => f.getAttribute "sandbox") =
        .ok (some SANDBOX_WITH_SAME_ORIGIN)) ∧
    (∀ v : String, v ≠ "" → getParameterByName DISABLE_SAME_ORIGIN_KEY url = .ok (some v) →
      (getOfficeEditorFrameElement env url).map (fun f => f.getAttribute "sandbox") =
        .ok (some SANDBOX_STRICT)) := by
  refine ⟨fun h => ?_, fun h => ?_, fun v hv h => ?_⟩
  · simp only [getOfficeEditorFrameElement, h]; rfl
  · simp only [getOfficeEditorFrameElement, h]; rfl
  · simp only [getOfficeEditorFrameElement, h]
    rw [if_pos (bne_iff_ne.mpr hv)]
    rfl

/-- Witness for C1 (amended): concrete URLs with the flag absent and with
the flag set to the non-empty string "false". -/
theorem sandbox_attribute_selection_witness :
    (getOfficeEditorFrameElement sampleEnv "https://app.example/file/1").map
      (fun f => f.getAttribute "sandbox") = .ok (some SANDBOX_WITH_SAME_ORIGIN) ∧
    (getOfficeEditorFrameElement sampleEnv
        "https://app.example/file/1?disableAllowSameOrigin=false").map
      (fun f => f.getAttribute "sandbox") = .ok (some SANDBOX_STRICT) :=
  ⟨(sandbox_attribute_selection sampleEnv "https://app.example/file/1").1 rfl,
   (sandbox_attribute_selection sampleEnv
      "https://app.example/file/1?disableAllowSameOrigin=false").2.2 "false" (by decide) rfl⟩

/-- C2: for every inbound message whose payload parses to a JSON object,
dispatch routes to exactly one handler per supported MessageId:
`App_LoadingStatus` triggers only the editor-load timing emission plus the
ready-message send; `File_Rename` triggers only the title update; any other
MessageId value causes no state change, no telemetry emission, no outbound
message and no error. -/
theorem dispatch_by_message_id (env : Env) (st : ModuleState) (s : String) (now : ℚ)
    (epochNow : Int) (fs : List (String × JsValue)) (hs : s ≠ "")
    (hp : jsonParse s = .ok (.obj fs)) :
    (fieldVal fs "MessageId" = .str APP_LOADING_STATUS_MESSAGE_ID →
      receiveEventFromOfficeOnline env st (some s) now epochNow =
        .ok { st with
              logs := st.logs ++ logLoadTime env st.startTs now EDITOR_LOAD_TIME_EVENT,
              posted := st.posted ++ [readyPost env epochNow] }) ∧
    (∀ nn : JsValue, fieldVal fs "MessageId" = .str FILE_RENAME_MESSAGE_ID →
      (fieldVal fs "Values").member "NewName" = .ok nn →
      receiveEventFromOfficeOnline env st (some s) now epochNow =
        .ok { st with
              parentDocTitle :=
                env.t "%1 on %2" "office_online_window_title_with_file_name"
                  (nn.asJsString ++ "." ++ env.fileExtension) env.titleWithNoFilename }) ∧
    (fieldVal fs "MessageId" ≠ .str APP_LOADING_STATUS_MESSAGE_ID →
      fieldVal fs "MessageId" ≠ .str FILE_RENAME_MESSAGE_ID →
      receiveEventFromOfficeOnline env st (some s) now epochNow = .ok st) := by
  refine ⟨fun hmid => ?_, fun nn hmid hnn => ?_, fun h1 h2 => ?_⟩
  · rw [receiveEvent_parsed env st s now epochNow (.obj fs) hs hp]
    unfold handleParsed
    rw [messageIdIs_obj, messageIdIs_obj, hmid, strictEqString_self,
      strictEqString_eq_false app_ne_file]
    rfl
  · rw [receiveEvent_parsed env st s now epochNow (.obj fs) hs hp]
    unfold handleParsed
    rw [messageIdIs_obj, messageIdIs_obj, hmid, strictEqString_self,
      strictEqString_eq_false file_ne_app]
    show handleFileRename env st (.obj fs) = _
    unfold handleFileRename
    rw [show (JsValue.obj fs).member "Values" = .ok (fieldVal fs "Values") from rfl]
    dsimp only
    rw [hnn]
  · rw [receiveEvent_parsed env st s now epochNow (.obj fs) hs hp]
    unfold handleParsed
    rw [messageIdIs_obj, messageIdIs_obj, strictEqString_eq_false h1,
      strictEqString_eq_false h2]
    rfl

/-- Witness for C2: the `App_LoadingStatus` payload triggers exactly the
timing emission plus ready post, and an unrecognized MessageId is a
no-op. -/
theorem dispatch_by_message_id_witness :
    receiveEventFromOfficeOnline sampleEnv sampleState (some appLoadingPayload) 12000 77 =
      .ok { sampleState with
            logs := sampleState.logs ++
              logLoadTime sampleEnv sampleState.startTs 12000 EDITOR_LOAD_TIME_EVENT,
            posted := sampleState.posted ++ [readyPost sampleEnv 77] } ∧
    receiveEventFromOfficeOnline sampleEnv sampleState
        (some "\x7b\"MessageId\":\"Something_Else\"\x7d") 5 7 = .ok sampleState :=
  ⟨(dispatch_by_message_id sampleEnv sampleState appLoadingPayload 12000 77
      [("MessageId", .str "App_LoadingStatus")] (by decide) rfl).1 rfl,
   (dispatch_by_message_id sampleEnv sampleState "\x7b\"MessageId\":\"Something_Else\"\x7d" 5 7
      [("MessageId", .str "Something_Else")] (by decide) rfl).2.2
      (fun h => absurd (JsValue.str.inj h) (by decide))
      (fun h => absurd (JsValue.str.inj h) (by decide))⟩

/-- C7: for every `File_Rename` message carrying a string `NewName`, the
display name is computed as `NewName + "." + fileExtension`, combined with
the configured no-filename title string via the title template, and the
result is written to the hosting (parent) document's title. -/
theorem file_rename_updates_parent_title (env : Env) (st : ModuleState) (s : String)
    (now : ℚ) (epochNow : Int) (fs : List (String × JsValue)) (nn : String)
    (hs : s ≠ "") (hp : jsonParse s = .ok (.obj fs))
    (hmid : fieldVal fs "MessageId" = .str FILE_RENAME_MESSAGE_ID)
    (hnn : (fieldVal fs "Values").member "NewName" = .ok (.str nn)) :
    receiveEventFromOfficeOnline env st (some s) now epochNow =
      .ok { st with
            parentDocTitle :=
              env.t "%1 on %2" "office_online_window_title_with_file_name"
                (nn ++ "." ++ env.fileExtension) env.titleWithNoFilename } := by
  rw [receiveEvent_parsed env st s now epochNow (.obj fs) hs hp]
  unfold handleParsed
  rw [messageIdIs_obj, messageIdIs_obj, hmid, strictEqString_self,
    strictEqString_eq_false file_ne_app]
  show handleFileRename env st (.obj fs) = _
  unfold handleFileRename
  rw [show (JsValue.obj fs).member "Values" = .ok (fieldVal fs "Values") from rfl]
  dsimp only
  rw [hnn]
  rfl

/-- Witness for C7: `NewName = "Report"` with configured
`fileExtension = "xlsx"` yields the display name `Report.xlsx`, rendered
through the title template with the no-filename title string. -/
theorem file_rename_updates_parent_title_witness :
    receiveEventFromOfficeOnline sampleEnv sampleState (some fileRenamePayload) 5 7 =
      .ok { sampleState with parentDocTitle := "Report.xlsx on Box for Office Online" } :=
  file_rename_updates_parent_title sampleEnv sampleState fileRenamePayload 5 7
    [("MessageId", .str "File_Rename"), ("Values", .obj [("NewName", .str "Report")])]
    "Report" (by decide) rfl rfl rfl

/-- Posted-message invariant: if every already-posted message is a ready
post, the same holds after any further run. -/
theorem run_posted_ready (env : Env) (st : ModuleState) (es : List ModuleEvent)
    (hP : ∀ m ∈ st.posted, ∃ t : Int, m = readyPost env t) :
    ∀ m ∈ (run env st es).posted, ∃ t : Int, m = readyPost env t := by
  induction es generalizing st with
  | nil => exact hP
  | cons e es ih =>
    apply ih
    rcases (step_fields env st e).2.2 with h | ⟨t, _, h⟩
    · rw [h]; exact hP
    · rw [h]
      intro m hm
      rcases List.mem_append.mp hm with hm | hm
      · exact hP m hm
      · cases List.mem_singleton.mp hm
        exact ⟨t, rfl⟩

/-- Concrete evaluation: the iframe-load record of the sample session. -/
theorem logLoadTime_sample_iframe :
    logLoadTime sampleEnv 100 250 IFRAME_LOAD_TIME_EVENT = [sampleIframeRecord] := by
  unfold logLoadTime
  dsimp only
  rw [if_neg (by norm_num : ¬(10000 : ℚ) ≤ 250 - 100)]
  norm_num [sampleEnv, sampleIframeRecord, OFFICE_ONLINE_CATEGORY_NAME, IFRAME_LOAD_TIME_EVENT]

/-- Concrete evaluation: the editor-load records of the sample session (a
slow load, so the `_slow` twin is also emitted). -/
theorem logLoadTime_sample_editor :
    logLoadTime sampleEnv 100 12000 EDITOR_LOAD_TIME_EVENT =
      [sampleEditorRecord,
       { sampleEditorRecord with event_name := "EDITOR_LOAD_TIME_slow" }] := by
  unfold logLoadTime
  dsimp only
  rw [if_pos (by norm_num : (10000 : ℚ) ≤ 12000 - 100)]
  norm_num [sampleEnv, sampleEditorRecord, OFFICE_ONLINE_CATEGORY_NAME, EDITOR_LOAD_TIME_EVENT]
  rfl

/-- Concrete evaluation: `init` of the sample session succeeds with the
sample state. -/
theorem initModule_sample :
    initModule sampleEnv "https://app.example/file/1" "t0" 100 250 = .ok sampleInitState := by
  unfold initModule
  rw [show getOfficeEditorFrameElement sampleEnv "https://app.example/file/1" =
        .ok sampleFrame from rfl]
  dsimp only
  rw [logLoadTime_sample_iframe]
  rfl

/-- Concrete evaluation: handling the sample `App_LoadingStatus` message. -/
theorem receiveEvent_sample_app :
    receiveEventFromOfficeOnline sampleEnv sampleInitState (some appLoadingPayload) 12000 77 =
      .ok (handleAppLoading sampleEnv sampleInitState 12000 77) := by
  rw [receiveEvent_parsed sampleEnv sampleInitState appLoadingPayload 12000 77
        (.obj [("MessageId", .str "App_LoadingStatus")]) (by decide) rfl]
  unfold handleParsed
  rw [messageIdIs_obj, messageIdIs_obj,
    show fieldVal [("MessageId", JsValue.str "App_LoadingStatus")] "MessageId" =
      .str APP_LOADING_STATUS_MESSAGE_ID from rfl,
    strictEqString_self, strictEqString_eq_false app_ne_file]
  rfl

/-- Concrete evaluation: the sample session step. -/
theorem step_sample_app :
    step sampleEnv sampleInitState (ModuleEvent.inbound (some appLoadingPayload) 12000 77) =
      handleAppLoading sampleEnv sampleInitState 12000 77 := by
  unfold step
  dsimp only
  rw [receiveEvent_sample_app]
  rfl

/-- Concrete evaluation: logs of the sample session after the editor-ready
message. -/
theorem run_sample_logs :
    (run sampleEnv sampleInitState
        [ModuleEvent.inbound (some appLoadingPayload) 12000 77]).logs =
      [sampleIframeRecord, sampleEditorRecord,
       { sampleEditorRecord with event_name := "EDITOR_LOAD_TIME_slow" }] := by
  show (step sampleEnv sampleInitState
      (ModuleEvent.inbound (some appLoadingPayload) 12000 77)).logs = _
  rw [step_sample_app]
  show sampleInitState.logs ++ logLoadTime sampleEnv 100 12000 EDITOR_LOAD_TIME_EVENT = _
  rw [logLoadTime_sample_editor]
  rfl

/-- Concrete evaluation: posted messages of the sample session. -/
theorem run_sample_posted :
    (run sampleEnv sampleInitState
        [ModuleEvent.inbound (some appLoadingPayload) 12000 77]).posted =
      [("\x7b\"MessageId\":\"Host_PostmessageReady\",\"SendTime\":77,\"Values\":\x7b\x7d\x7d",
        "https://officeapps.example")] := by
  show (step sampleEnv sampleInitState
      (ModuleEvent.inbound (some appLoadingPayload) 12000 77)).posted = _
  rw [step_sample_app]
  rfl

/-- C5: every message produced by `publishReadyMessage` is the JSON
serialization of an object whose `MessageId` equals `Host_PostmessageReady`,
whose `Values` is an empty mapping and whose `SendTime` is the
epoch-millisecond clock reading at the moment of the send; and in any
session starting from `init`, every message ever posted to the frame is
such a ready post (sent to the configured target origin). -/
theorem ready_message_only_outbound (env : Env) (pageUrl title0 : String) (now0 now1 : ℚ)
    (st0 : ModuleState) (es : List ModuleEvent)
    (hinit : initModule env pageUrl title0 now0 now1 = .ok st0) :
    (∀ epochNow : Int,
      readyPost env epochNow =
        (jsonStringify (.obj [("MessageId", .str "Host_PostmessageReady"),
                              ("SendTime", .num epochNow),
                              ("Values", .obj [])]), env.origin)) ∧
    (∀ st' : ModuleState, ∀ payload : Option String, ∀ n : ℚ, ∀ ep : Int,
      (step env st' (.inbound payload n ep)).posted = st'.posted ∨
      (step env st' (.inbound payload n ep)).posted = st'.posted ++ [readyPost env ep]) ∧
    (∀ m ∈ (run env st0 es).posted, ∃ epochNow : Int, m = readyPost env epochNow) := by
  refine ⟨fun epochNow => rfl, fun st' payload n ep => ?_, ?_⟩
  · rcases (step_fields env st' (.inbound payload n ep)).2.2 with h | ⟨t, ht, h⟩
    · exact Or.inl h
    · cases Option.some.inj ht
      exact Or.inr h
  · apply run_posted_ready
    unfold initModule at hinit
    cases hq : getOfficeEditorFrameElement env pageUrl with
    | error e => simp only [hq] at hinit; exact Except.noConfusion hinit
    | ok frameEl =>
      simp only [hq] at hinit
      cases hinit
      intro m hm
      simp at hm

/-- Witness for C5: a session in which `init` succeeds and one
`App_LoadingStatus` message arrives at epoch reading 77; every posted
message is a ready post, and the concrete posted trace is the single
serialized ready message with `SendTime` 77, sent to the configured
origin. -/
theorem ready_message_only_outbound_witness :
    (∀ m ∈ (run sampleEnv sampleInitState
        [ModuleEvent.inbound (some appLoadingPayload) 12000 77]).posted,
      ∃ epochNow : Int, m = readyPost sampleEnv epochNow) ∧
    (run sampleEnv sampleInitState
        [ModuleEvent.inbound (some appLoadingPayload) 12000 77]).posted =
      [("\x7b\"MessageId\":\"Host_PostmessageReady\",\"SendTime\":77,\"Values\":\x7b\x7d\x7d",
        "https://officeapps.example")] :=
  ⟨(ready_message_only_outbound sampleEnv "https://app.example/file/1" "t0" 100 250
      sampleInitState [ModuleEvent.inbound (some appLoadingPayload) 12000 77]
      initModule_sample).2.2,
   run_sample_posted⟩

/-- Log invariant carried over a run: the start timestamp never changes,
iframe-load records keep the elapsed time measured at frame insertion, and
every editor-load record measures some later clock reading against the same
single start timestamp. -/
theorem run_logs_inv (env : Env) (now0 now1 : ℚ) (st : ModuleState) (es : List ModuleEvent)
    (hstart : st.startTs = now0)
    (hts : ∀ p n e, ModuleEvent.inbound p n e ∈ es → now1 ≤ n)
    (hIfr : ∀ r ∈ st.logs, r.event_name = IFRAME_LOAD_TIME_EVENT → r.load_time = now1 - now0)
    (hEd : ∀ r ∈ st.logs, r.event_name = EDITOR_LOAD_TIME_EVENT →
      ∃ t, now1 ≤ t ∧ r.load_time = t - now0) :
    (run env st es).startTs = now0 ∧
    (∀ r ∈ (run env st es).logs, r.event_name = IFRAME_LOAD_TIME_EVENT →
      r.load_time = now1 - now0) ∧
    (∀ r ∈ (run env st es).logs, r.event_name = EDITOR_LOAD_TIME_EVENT →
      ∃ t, now1 ≤ t ∧ r.load_time = t - now0) := by
  induction es generalizing st with
  | nil => exact ⟨hstart, hIfr, hEd⟩
  | cons e es ih =>
    rw [run]
    refine ih (step env st e) ?_ (fun p n t hm => hts p n t (List.mem_cons_of_mem _ hm)) ?_ ?_
    · rw [(step_fields env st e).1, hstart]
    · rcases (step_fields env st e).2.1 with h | ⟨n, hn, h⟩
      · rw [h]; exact hIfr
      · rw [h]
        intro r hr hname
        rcases List.mem_append.mp hr with hr | hr
        · exact hIfr r hr hname
        · rcases mem_logLoadTime hr with ⟨_, hn1 | hn1⟩ <;> rw [hname] at hn1 <;>
            exact absurd hn1 (by decide)
    · rcases (step_fields env st e).2.1 with h | ⟨n, hn, h⟩
      · rw [h]; exact hEd
      · rw [h]
        intro r hr hname
        rcases List.mem_append.mp hr with hr | hr
        · exact hEd r hr hname
        · rcases mem_logLoadTime hr with ⟨hload, _⟩
          refine ⟨n, ?_, by rw [hload, hstart]⟩
          cases e with
          | destroy => exact absurd hn (by simp [eventNow])
          | inbound p m t =>
            have h1 := hts p m t (List.mem_cons_self _ _)
            cases Option.some.inj hn
            exact h1

/-- C8: within one session with monotone clock readings, the start
timestamp is captured exactly once, before the frame is inserted, and never
changes over the run; both timing events are computed as the clock reading
at the milestone minus that single start timestamp, and therefore the
elapsed time reported for `EDITOR_LOAD_TIME` is always at least the elapsed
time reported for `IFRAME_LOAD_TIME`. -/
theorem load_time_ordering (env : Env) (pageUrl title0 : String) (now0 now1 : ℚ)
    (st0 : ModuleState) (es : List ModuleEvent)
    (hmono : now0 ≤ now1)
    (hinit : initModule env pageUrl title0 now0 now1 = .ok st0)
    (hts : ∀ p n e, ModuleEvent.inbound p n e ∈ es → now1 ≤ n) :
    (run env st0 es).startTs = now0 ∧
    (∀ r ∈ (run env st0 es).logs, r.event_name = IFRAME_LOAD_TIME_EVENT →
      r.load_time = now1 - now0) ∧
    (∀ r ∈ (run env st0 es).logs, ∀ ri ∈ (run env st0 es).logs,
      r.event_name = EDITOR_LOAD_TIME_EVENT → ri.event_name = IFRAME_LOAD_TIME_EVENT →
      ri.load_time ≤ r.load_time) := by
  have hst0 : st0.startTs = now0 ∧ st0.logs = logLoadTime env now0 now1 IFRAME_LOAD_TIME_EVENT := by
    unfold initModule at hinit
    cases hq : getOfficeEditorFrameElement env pageUrl with
    | error e => simp only [hq] at hinit; exact Except.noConfusion hinit
    | ok frameEl =>
      simp only [hq] at hinit
      cases hinit
      exact ⟨rfl, rfl⟩
  have hinv := run_logs_inv env now0 now1 st0 es hst0.1 hts
    (by
      rw [hst0.2]
      intro r hr _
      exact (mem_logLoadTime hr).1)
    (by
      rw [hst0.2]
      intro r hr hname
      rcases mem_logLoadTime hr with ⟨_, hn1 | hn1⟩ <;> rw [hname] at hn1 <;>
        exact absurd hn1 (by decide))
  refine ⟨hinv.1, hinv.2.1, fun r hr ri hri hrE hriI => ?_⟩
  rcases hinv.2.2 r hr hrE with ⟨t, ht, hload⟩
  rw [hinv.2.1 ri hri hriI, hload]
  exact sub_le_sub_right ht now0

/-- Witness for C8: a concrete session (start captured at 100, iframe
record at 250, editor message at 12000) in which the iframe record's
elapsed time 150 is at most the editor record's 11900. -/
theorem load_time_ordering_witness :
    sampleIframeRecord.load_time ≤ sampleEditorRecord.load_time :=
  (load_time_ordering sampleEnv "https://app.example/file/1" "t0" 100 250 sampleInitState
      [ModuleEvent.inbound (some appLoadingPayload) 12000 77] (by norm_num) initModule_sample
      (fun p n e hm => by
        rcases ModuleEvent.inbound.inj (List.mem_singleton.mp hm) with ⟨rfl, rfl, rfl⟩
        norm_num)).2.2
    sampleEditorRecord (by rw [run_sample_logs]; simp)
    sampleIframeRecord (by rw [run_sample_logs]; simp)
    rfl rfl

end OfficeOnline
